import Mathlib

/-!
Shallow embedding of the slate-react "before" plugin
(`packages/slate-react/src/plugins/dom/before.js`): the browser-event
normalization layer that reconciles native composition mutations with the
logical document. Definitions mirror the source; theorems settle the
specified properties.
-/

namespace SlateBefore

/-- The zero-width placeholder character U+FEFF that browsers inject. -/
def zwChar : Char := Char.ofNat 0xFEFF

/-- Embedding of the regex replace that removes every zero-width placeholder
from a string. -/
def stripZW (s : String) : String :=
  String.mk (s.data.filter (fun c => c ≠ zwChar))

/-- A child node of a text-run element: a DOM text node or a `<br>`. -/
inductive DomChild
  | text (s : String)
  | br
deriving DecidableEq, Repr

def DomChild.textContent : DomChild → String
  | .text s => s
  | .br => ""

/-- Concatenation of the text of a list of DOM pieces, in document order. -/
def concatTexts : List String → String
  | [] => ""
  | s :: rest => s ++ concatTexts rest

/-- A descendant element of a slate span as matched by
`querySelectorAll(STRING, ZERO_WIDTH)`: carries the `data-string` /
`data-zero-width` / `data-length` attributes and its child nodes. -/
structure DomRun where
  isString : Bool
  isZeroWidth : Bool
  hasLengthAttr : Bool
  children : List DomChild
deriving DecidableEq, Repr

def DomRun.textContent (r : DomRun) : String :=
  concatTexts (r.children.map DomChild.textContent)

/-- Model of the loop that removes `<br>` children: it iterates a live
NodeList while removing, so after a removal the iterator still advances and
the element right after a removed `<br>` is skipped. -/
def removeBrLive (l : List DomChild) (i : Nat) : List DomChild :=
  if h : i < l.length then
    match l.get ⟨i, h⟩ with
    | .br => removeBrLive (l.eraseIdx i) (i + 1)
    | .text _ => removeBrLive l (i + 1)
  else l
termination_by l.length - i
decreasing_by
  · simp only [List.length_eraseIdx, h, if_pos]
    omega
  · omega

/-- The cleanup the flush applies to one matched run (before.js 541-564):
for a qualifying run, remove `<br>` children, strip U+FEFF (rewriting the
single child in place when exactly one remains, else via the `textContent`
setter), and clear the zero-width/length attribute hints. -/
def cleanRun (r : DomRun) : DomRun :=
  if r.isString || r.isZeroWidth then
    if (r.isString && r.textContent.data.contains zwChar)
        || (r.isZeroWidth && r.textContent != String.mk [zwChar]) then
      { r with
        children :=
          match removeBrLive r.children 0 with
          | [DomChild.text s] => [DomChild.text (stripZW s)]
          | [DomChild.br] => [DomChild.br]
          | kids => [DomChild.text (stripZW (concatTexts (kids.map DomChild.textContent)))],
        isZeroWidth := false,
        hasLengthAttr := false }
    else r
  else r

/-- Value of `slateSpanNode.textContent`: all text under the span's runs. -/
def spanTextContent (runs : List DomRun) : String :=
  concatTexts (runs.map DomRun.textContent)

/-- A logical slate text node: stable key plus its text. -/
structure SlateNode where
  key : Nat
  text : String
deriving DecidableEq, Repr

/-- The logical document, as the flush reads it: keyed text nodes. -/
structure Doc where
  nodes : List SlateNode
deriving DecidableEq, Repr

def Doc.getNode (d : Doc) (k : Nat) : Option SlateNode :=
  d.nodes.find? (fun n => n.key == k)

def Doc.getPath (d : Doc) (k : Nat) : Option Nat :=
  d.nodes.findIdx? (fun n => n.key == k)

/-- A logical document position. -/
structure Point where
  key : Nat
  path : Nat
  offset : Nat
deriving DecidableEq, Repr

/-- The slice of the slate selection that the plugin reads. -/
structure Sel where
  isCollapsed : Bool
  isBlurred : Bool
  anchor : Point
deriving DecidableEq, Repr

/-- The record `editor.controller.tmp.nextNativeOperation`: selection snapshot plus the
DOM span under the caret (`closest(SELECTORS.KEY)` may return null, hence
the Option on the element id). -/
structure NativeOp where
  selection : Sel
  slateSpanNode : Option Nat
deriving DecidableEq, Repr

/-- The editor-visible state the plugin reads and mutates. -/
structure EditorState where
  readOnly : Bool
  doc : Doc
  sel : Sel
  pendingOp : Option NativeOp
deriving DecidableEq, Repr

/-- The closure-local mutable variables of `BeforePlugin`. -/
structure PluginState where
  activeElement : Option Nat
  compositionCount : Nat
  isComposing : Bool
  isCopying : Bool
  isDragging : Bool
  isUserActionPerformed : Bool
deriving DecidableEq, Repr

/-- Full reconciler state: plugin closure plus editor. -/
structure State where
  ps : PluginState
  ed : EditorState
deriving DecidableEq, Repr

/-- The browser/host environment read by the handlers: window state, DOM
lookups provided by the host editor, and build-time feature flags. -/
structure Env where
  windowActiveElement : Option Nat
  nativeAnchorSpan : Option Nat
  nativeAnchorOffset : Nat
  anchorStillAttached : Bool
  findPointResult : Option Point
  findNodeByDom : Nat → Option Nat
  isVoidKey : Nat → Bool
  runsOfSpan : Nat → List DomRun
  editorRootId : Nat
  rootContains : Nat → Bool
  hasSpacerAttr : Nat → Bool
  hasInputEventsLevel2 : Bool
  isIOS : Bool
  isIE : Bool
  isFirefox : Bool

/-- A host-editor command or native-selection mutation issued by a handler. -/
inductive Effect
  | deleteSelection
  | insertTextAtRange (path : Option Nat) (key startOff endOff : Nat) (text : String)
  | selectPoint (p : Point)
  | nativeCollapse (offset : Nat)
  | setDropEffectMove
  | focusRoot
deriving DecidableEq, Repr

/-- The fatal errors the flush can throw. -/
inductive FlushErr
  | noSlateSpan
  | spanMismatch
  | nodeMismatch
  | nodeMissing
  | nodeDetached
  | noPoint
deriving DecidableEq, Repr

/-- An exception escaping a handler. -/
inductive HError
  | alreadyHaveNativeOp
  | flush (e : FlushErr)
deriving DecidableEq, Repr

/-- The JS value the flush returns: `return false` or falling off the end. -/
inductive JsVal
  | vTrue
  | vFalse
  | vUndefined
deriving DecidableEq, Repr

def JsVal.truthy : JsVal → Bool
  | .vTrue => true
  | .vFalse => false
  | .vUndefined => false

instance {ε α : Type} [DecidableEq ε] [DecidableEq α] : DecidableEq (Except ε α)
  | .error a, .error b =>
    if h : a = b then isTrue (by rw [h]) else isFalse (by intro hc; cases hc; exact h rfl)
  | .error _, .ok _ => isFalse (by intro h; cases h)
  | .ok _, .error _ => isFalse (by intro h; cases h)
  | .ok a, .ok b =>
    if h : a = b then isTrue (by rw [h]) else isFalse (by intro hc; cases hc; exact h rfl)

/-- Result of a flush: the editor state after all mutations that happened
before a return or throw, the host commands issued, and the outcome. -/
structure FlushOut where
  ed : EditorState
  effects : List Effect
  result : Except FlushErr JsVal
deriving DecidableEq, Repr

/-- Modelled from the spec: `editor.insertTextAtRange` (slate core, not under
src/) — "Mutation: replace text in a logical range": in the node named by
`key`, the characters from `startOff` (inclusive) to `endOff` (exclusive)
are replaced by `t`. -/
def Doc.insertTextAtRange (d : Doc) (k startOff endOff : Nat) (t : String) : Doc :=
  { nodes := d.nodes.map fun nd =>
      if nd.key = k then
        { nd with
          text := String.mk (nd.text.data.take startOff ++ t.data ++ nd.text.data.drop endOff) }
      else nd }

/-- Modelled from the spec: `editor.select` (slate core, not under src/) —
"set selection to a given range"; the flush passes a collapsed range at a
single point. Focus state is unspecified there, so it is left unchanged. -/
def Sel.selectCollapsed (s : Sel) (p : Point) : Sel :=
  { s with isCollapsed := true, anchor := p }

/-- Shallow embedding of `flushQueuedNativeOperations` (before.js 518-593).
Mutations performed before a throw persist (JS semantics), so the output
state accompanies the result in both cases. -/
def flushQueuedNativeOperations (env : Env) (ed : EditorState) : FlushOut :=
  match ed.pendingOp with
  | none => { ed := ed, effects := [], result := .ok .vFalse }
  | some op =>
    let ed0 : EditorState := { ed with pendingOp := none }
    let currentOffset := env.nativeAnchorOffset
    match env.nativeAnchorSpan with
    | none => { ed := ed0, effects := [], result := .error .noSlateSpan }
    | some currentSpan =>
      if op.slateSpanNode ≠ some currentSpan then
        { ed := ed0, effects := [], result := .error .spanMismatch }
      else
        let key := op.selection.anchor.key
        let path := ed0.doc.getPath key
        match env.findNodeByDom currentSpan, ed0.doc.getNode key with
        | some k1, some node =>
          if k1 ≠ node.key then
            { ed := ed0, effects := [], result := .error .nodeMismatch }
          else
            let cleaned := (env.runsOfSpan currentSpan).map cleanRun
            let newTextContent := stripZW (spanTextContent cleaned)
            let eff1 : Effect := .insertTextAtRange path key 0 node.text.length newTextContent
            let ed1 := { ed0 with
              doc := ed0.doc.insertTextAtRange key 0 node.text.length newTextContent }
            if !env.anchorStillAttached then
              { ed := ed1, effects := [eff1], result := .error .nodeDetached }
            else
              match env.findPointResult with
              | none => { ed := ed1, effects := [eff1], result := .error .noPoint }
              | some p =>
                { ed := { ed1 with sel := ed1.sel.selectCollapsed p },
                  effects := [eff1, .selectPoint p, .nativeCollapse currentOffset],
                  result := .ok .vUndefined }
        | none, none =>
          { ed := ed0, effects := [], result := .error .nodeMissing }
        | _, _ =>
          { ed := ed0, effects := [], result := .error .nodeMismatch }

/-- What one handler invocation produced: the new state, issued host
commands, whether the continuation ran, whether `preventDefault` ran, any
deferred tasks scheduled, and a thrown exception if one escaped. -/
structure HRes where
  s : State
  effects : List Effect := []
  calledNext : Bool := false
  preventedDefault : Bool := false
  scheduledCompositionReset : Option Nat := none
  scheduledCopyReset : Bool := false
  err : Option HError := none
deriving DecidableEq, Repr

/-- Handler `onBeforeInput` (before.js 45-61). -/
def onBeforeInput (env : Env) (isSynthetic : Bool) (s : State) : HRes :=
  if s.ps.isComposing then { s := s }
  else if s.ed.readOnly then { s := s }
  else
    let s1 : State := { s with ps := { s.ps with isUserActionPerformed := true } }
    if isSynthetic && env.hasInputEventsLevel2 then { s := s1 }
    else { s := s1, calledNext := true }

/-- Handler `onBlur` (before.js 71-110). -/
def onBlur (env : Env) (relatedTarget : Option Nat) (s : State) : HRes :=
  if s.ps.isCopying then { s := s }
  else if s.ed.readOnly then { s := s }
  else if s.ps.activeElement = env.windowActiveElement then { s := s }
  else
    match relatedTarget with
    | some rt =>
      if rt = env.editorRootId then { s := s }
      else if env.hasSpacerAttr rt then { s := s }
      else
        match env.findNodeByDom rt with
        | some k =>
          if env.rootContains rt && !env.isVoidKey k then { s := s }
          else { s := s, calledNext := true }
        | none => { s := s, calledNext := true }
    | none => { s := s, calledNext := true }

/-- Handler `onCompositionEnd` (before.js 120-138). A throw from the flush escapes
the handler, so neither the deferred reset nor `next` happens then. -/
def onCompositionEnd (env : Env) (s : State) : HRes :=
  let n := s.ps.compositionCount
  let ps1 := { s.ps with isUserActionPerformed := true }
  let f := flushQueuedNativeOperations env s.ed
  match f.result with
  | .error e =>
    { s := { ps := ps1, ed := f.ed }, effects := f.effects, err := some (.flush e) }
  | .ok _ =>
    { s := { ps := ps1, ed := f.ed }, effects := f.effects,
      scheduledCompositionReset := some n, calledNext := true }

/-- The deferred finalize task scheduled by `onCompositionEnd`
(before.js 130-133), run later with the captured count `n`. -/
def runCompositionReset (n : Nat) (ps : PluginState) : PluginState :=
  if ps.compositionCount > n then ps else { ps with isComposing := false }

/-- Handler `onClick` (before.js 148-152). -/
def onClick (s : State) : HRes :=
  { s := { s with ps := { s.ps with isUserActionPerformed := true } }, calledNext := true }

/-- Handler `onCompositionStart` (before.js 162-195). `editor.delete()` is a slate
core command outside this file; it is recorded as an issued effect. -/
def onCompositionStart (env : Env) (s : State) : HRes :=
  let ps1 := { s.ps with
    isComposing := true,
    compositionCount := s.ps.compositionCount + 1,
    isUserActionPerformed := true }
  if !s.ed.sel.isCollapsed then
    { s := { ps := ps1, ed := s.ed }, effects := [.deleteSelection], calledNext := true }
  else
    match s.ed.pendingOp with
    | some _ => { s := { ps := ps1, ed := s.ed }, err := some .alreadyHaveNativeOp }
    | none =>
      let op : NativeOp := { selection := s.ed.sel, slateSpanNode := env.nativeAnchorSpan }
      { s := { ps := ps1, ed := { s.ed with pendingOp := some op } }, calledNext := true }

/-- Handler `onCopy` (before.js 205-212). -/
def onCopy (s : State) : HRes :=
  { s := { s with ps := { s.ps with isCopying := true } },
    scheduledCopyReset := true, calledNext := true }

/-- Handler `onCut` (before.js 222-231). -/
def onCut (s : State) : HRes :=
  if s.ed.readOnly then { s := s }
  else
    { s := { s with ps := { s.ps with isCopying := true } },
      scheduledCopyReset := true, calledNext := true }

/-- Handler `onDragEnd` (before.js 241-247). -/
def onDragEnd (s : State) : HRes :=
  { s := { s with ps := { s.ps with isDragging := false } }, calledNext := true }

/-- Handlers `onDragEnter` / `onDragExit` / `onDragLeave` (before.js 257-289). -/
def onDragPass (s : State) : HRes := { s := s, calledNext := true }

/-- Handler `onDragOver` (before.js 299-332). -/
def onDragOver (env : Env) (target : Nat) (s : State) : HRes :=
  let node := env.findNodeByDom target
  let pd :=
    (match node with
     | none => true
     | some k => env.isVoidKey k) || env.isIE
  if !s.ps.isDragging then
    { s := { s with ps := { s.ps with isDragging := true } },
      effects := if !env.isIE then [.setDropEffectMove] else [],
      preventedDefault := pd, calledNext := true }
  else
    { s := s, preventedDefault := pd, calledNext := true }

/-- Handler `onDragStart` (before.js 342-348). -/
def onDragStart (s : State) : HRes :=
  { s := { s with ps := { s.ps with isDragging := true } }, calledNext := true }

/-- Handler `onDrop` (before.js 358-367). -/
def onDrop (s : State) : HRes :=
  if s.ed.readOnly then { s := s }
  else
    { s := { s with ps := { s.ps with isUserActionPerformed := true } },
      preventedDefault := true, calledNext := true }

/-- Handler `onFocus` (before.js 377-397). -/
def onFocus (env : Env) (target : Nat) (s : State) : HRes :=
  if s.ps.isCopying then { s := s }
  else if s.ed.readOnly then { s := s }
  else
    let s1 : State := { s with ps := { s.ps with activeElement := env.windowActiveElement } }
    if env.isFirefox && target != env.editorRootId then
      { s := s1, effects := [.focusRoot] }
    else { s := s1, calledNext := true }

/-- Handler `onInput` (before.js 407-419). -/
def onInput (env : Env) (s : State) : HRes :=
  if s.ps.isComposing then { s := s }
  else
    let f := flushQueuedNativeOperations env s.ed
    match f.result with
    | .error e => { s := { s with ed := f.ed }, effects := f.effects, err := some (.flush e) }
    | .ok v =>
      let s1 : State := { s with ed := f.ed }
      if v.truthy then { s := s1, effects := f.effects, calledNext := true }
      else if s1.ed.sel.isBlurred then { s := s1, effects := f.effects }
      else
        { s := { s1 with ps := { s1.ps with isUserActionPerformed := true } },
          effects := f.effects, calledNext := true }

/-- The hotkey classification flags of one key event (slate-hotkeys). -/
structure KeyFlags where
  isCompose : Bool
  isBold : Bool
  isItalic : Bool
  isDeleteBackward : Bool
  isDeleteForward : Bool
  isDeleteLineBackward : Bool
  isDeleteLineForward : Bool
  isDeleteWordBackward : Bool
  isDeleteWordForward : Bool
  isRedo : Bool
  isSplitBlock : Bool
  isTransposeCharacter : Bool
  isUndo : Bool
deriving DecidableEq, Repr

/-- Handler `onKeyDown` (before.js 429-466). -/
def onKeyDown (env : Env) (kd : KeyFlags) (s : State) : HRes :=
  if s.ed.readOnly then { s := s }
  else if s.ps.isComposing then
    { s := s, preventedDefault := kd.isCompose }
  else
    let hot := !env.isIOS &&
      (kd.isBold || kd.isDeleteBackward || kd.isDeleteForward ||
       kd.isDeleteLineBackward || kd.isDeleteLineForward ||
       kd.isDeleteWordBackward || kd.isDeleteWordForward ||
       kd.isItalic || kd.isRedo || kd.isSplitBlock ||
       kd.isTransposeCharacter || kd.isUndo)
    { s := { s with ps := { s.ps with isUserActionPerformed := true } },
      preventedDefault := hot, calledNext := true }

/-- Handler `onPaste` (before.js 476-485). -/
def onPaste (s : State) : HRes :=
  if s.ed.readOnly then { s := s }
  else
    { s := { s with ps := { s.ps with isUserActionPerformed := true } },
      preventedDefault := true, calledNext := true }

/-- Handler `onSelect` (before.js 495-507). -/
def onSelect (env : Env) (s : State) : HRes :=
  if s.ps.isComposing then { s := s }
  else if s.ps.isCopying then { s := s }
  else if s.ed.readOnly then { s := s }
  else
    { s := { s with ps := { s.ps with
        activeElement := env.windowActiveElement,
        isUserActionPerformed := true } }, calledNext := true }

/-- Query `userActionPerformed` (before.js 509-511). -/
def userActionPerformed (s : State) : Bool := s.ps.isUserActionPerformed

/-- Command `clearUserActionPerformed` (before.js 513-516). -/
def clearUserActionPerformed (s : State) : State :=
  { s with ps := { s.ps with isUserActionPerformed := false } }

/-- The native event categories the plugin handles. -/
inductive HEvent
  | beforeInput (isSynthetic : Bool)
  | blur (relatedTarget : Option Nat)
  | click
  | compositionEnd
  | compositionStart
  | copy
  | cut
  | dragEnd
  | dragEnter
  | dragExit
  | dragLeave
  | dragOver (target : Nat)
  | dragStart
  | drop
  | focus (target : Nat)
  | input
  | keyDown (kd : KeyFlags)
  | paste
  | select
deriving DecidableEq, Repr

/-- Dispatch one native event to its handler. -/
def step (env : Env) (e : HEvent) (s : State) : HRes :=
  match e with
  | .beforeInput sy => onBeforeInput env sy s
  | .blur rt => onBlur env rt s
  | .click => onClick s
  | .compositionEnd => onCompositionEnd env s
  | .compositionStart => onCompositionStart env s
  | .copy => onCopy s
  | .cut => onCut s
  | .dragEnd => onDragEnd s
  | .dragEnter => onDragPass s
  | .dragExit => onDragPass s
  | .dragLeave => onDragPass s
  | .dragOver t => onDragOver env t s
  | .dragStart => onDragStart s
  | .drop => onDrop s
  | .focus t => onFocus env t s
  | .input => onInput env s
  | .keyDown kd => onKeyDown env kd s
  | .paste => onPaste s
  | .select => onSelect env s

/-! Concrete fixtures for the witness and counterexample theorems. -/

/-- A concrete logical point. -/
def ptA : Point := { key := 1, path := 0, offset := 5 }

/-- A collapsed, focused selection at `ptA`. -/
def selA : Sel := { isCollapsed := true, isBlurred := false, anchor := ptA }

/-- A one-node document. -/
def docA : Doc := { nodes := [{ key := 1, text := "hello" }] }

/-- A pending native operation snapshotting `selA` over DOM span 10. -/
def opA : NativeOp := { selection := selA, slateSpanNode := some 10 }

/-- Editor state with `opA` outstanding. -/
def edA : EditorState := { readOnly := false, doc := docA, sel := selA, pendingOp := some opA }

/-- Editor state with nothing pending. -/
def edNone : EditorState := { edA with pendingOp := none }

/-- Quiescent plugin state. -/
def psA : PluginState :=
  { activeElement := none, compositionCount := 0, isComposing := false,
    isCopying := false, isDragging := false, isUserActionPerformed := false }

/-- Plugin state mid-composition after one `compositionstart`. -/
def psComp : PluginState := { psA with isComposing := true, compositionCount := 1 }

/-- Full state with a pending native operation. -/
def stA : State := { ps := psA, ed := edA }

/-- Full state with nothing pending. -/
def stNone : State := { ps := psA, ed := edNone }

/-- An expanded (non-collapsed) selection. -/
def selExp : Sel := { selA with isCollapsed := false }

/-- Full state whose selection is a non-empty range, nothing pending. -/
def stExp : State := { ps := psA, ed := { edA with sel := selExp, pendingOp := none } }

/-- A concrete host environment: the native anchor sits in DOM span 10, which
maps to the logical node with key 1; the span holds the composed text with
one injected zero-width placeholder. -/
def envA : Env where
  windowActiveElement := some 100
  nativeAnchorSpan := some 10
  nativeAnchorOffset := 3
  anchorStillAttached := true
  findPointResult := some { key := 1, path := 0, offset := 3 }
  findNodeByDom := fun d => if d = 10 then some 1 else none
  isVoidKey := fun k => k == 9
  runsOfSpan := fun _ =>
    [{ isString := true, isZeroWidth := false, hasLengthAttr := false,
       children := [.text "ab\uFEFFc"] }]
  editorRootId := 0
  rootContains := fun d => d == 10 || d == 7
  hasSpacerAttr := fun d => d == 7
  hasInputEventsLevel2 := false
  isIOS := false
  isIE := false
  isFirefox := false

/-- Environment `envA` with the native anchor outside any slate span. -/
def envErr : Env := { envA with nativeAnchorSpan := none }

/-- Environment `envA` on the iOS browser family. -/
def envIOS : Env := { envA with isIOS := true }

/-- A key event classified as the bold hotkey only. -/
def kdBold : KeyFlags :=
  { isCompose := false, isBold := true, isItalic := false, isDeleteBackward := false,
    isDeleteForward := false, isDeleteLineBackward := false, isDeleteLineForward := false,
    isDeleteWordBackward := false, isDeleteWordForward := false, isRedo := false,
    isSplitBlock := false, isTransposeCharacter := false, isUndo := false }

/-! Helper lemmas. -/

theorem empty_append_str (s : String) : "" ++ s = s := by
  cases s
  rfl

theorem str_append_empty (s : String) : s ++ "" = s := by
  cases s with
  | mk l =>
    show String.mk (l ++ []) = String.mk l
    rw [List.append_nil]

theorem stripZW_append (a b : String) : stripZW (a ++ b) = stripZW a ++ stripZW b := by
  cases a with
  | mk la =>
    cases b with
    | mk lb =>
      show String.mk ((la ++ lb).filter _) = String.mk (la.filter _ ++ lb.filter _)
      rw [List.filter_append]

theorem stripZW_stripZW (s : String) : stripZW (stripZW s) = stripZW s := by
  cases s with
  | mk l =>
    show String.mk ((l.filter _).filter _) = String.mk (l.filter _)
    rw [List.filter_filter]
    simp

theorem zwChar_not_mem_stripZW (s : String) : zwChar ∉ (stripZW s).data := by
  cases s with
  | mk l =>
    show zwChar ∉ l.filter _
    simp [List.mem_filter]

theorem concatTexts_map_eraseIdx_br (l : List DomChild) (i : Nat) (h : i < l.length)
    (hbr : l.get ⟨i, h⟩ = DomChild.br) :
    concatTexts ((l.eraseIdx i).map DomChild.textContent) =
      concatTexts (l.map DomChild.textContent) := by
  induction l generalizing i with
  | nil => simp at h
  | cons a t ih =>
    cases i with
    | zero =>
      have ha : a = DomChild.br := hbr
      subst ha
      simp only [List.eraseIdx, List.map, concatTexts, DomChild.textContent]
      rw [empty_append_str]
    | succ j =>
      have hj : j < t.length := by simpa using h
      simp only [List.eraseIdx, List.map, concatTexts]
      rw [ih j hj hbr]

theorem concatTexts_removeBrLive (l : List DomChild) (i : Nat) :
    concatTexts ((removeBrLive l i).map DomChild.textContent) =
      concatTexts (l.map DomChild.textContent) := by
  induction l, i using removeBrLive.induct with
  | case1 l i h c ih =>
    rw [removeBrLive, dif_pos h]
    simp only [c]
    rw [ih, concatTexts_map_eraseIdx_br l i h c]
  | case2 l i h c hs ih =>
    rw [removeBrLive, dif_pos h]
    simp only [hs]
    exact ih
  | case3 l i h =>
    rw [removeBrLive, dif_neg h]

theorem stripZW_textContent_cleanRun (r : DomRun) :
    stripZW (cleanRun r).textContent = stripZW r.textContent := by
  have hk : concatTexts ((removeBrLive r.children 0).map DomChild.textContent) =
      r.textContent := concatTexts_removeBrLive r.children 0
  unfold cleanRun
  split
  · split
    · simp only [DomRun.textContent]
      split
      · rename_i s heq
        rw [heq] at hk
        simp only [List.map_cons, List.map_nil, concatTexts, DomChild.textContent] at hk ⊢
        rw [str_append_empty] at hk
        rw [str_append_empty, stripZW_stripZW, hk]
        rfl
      · rename_i heq
        rw [heq] at hk
        simp only [DomRun.textContent, List.map_cons, List.map_nil, concatTexts,
          DomChild.textContent, empty_append_str] at hk ⊢
        rw [hk]
      · simp only [List.map_cons, List.map_nil, concatTexts, DomChild.textContent]
        rw [str_append_empty, stripZW_stripZW, hk]
        rfl
    · rfl
  · rfl

theorem stripZW_spanTextContent_map_cleanRun (runs : List DomRun) :
    stripZW (spanTextContent (runs.map cleanRun)) = stripZW (spanTextContent runs) := by
  induction runs with
  | nil => rfl
  | cons r rs ih =>
    simp only [List.map, spanTextContent, concatTexts] at ih ⊢
    rw [stripZW_append, stripZW_append, stripZW_textContent_cleanRun r, ih]

theorem flush_no_pending (env : Env) (ed : EditorState) (h : ed.pendingOp = none) :
    flushQueuedNativeOperations env ed =
      { ed := ed, effects := [], result := .ok JsVal.vFalse } := by
  unfold flushQueuedNativeOperations
  rw [h]

theorem flush_pending_clears (env : Env) (ed : EditorState) (op : NativeOp)
    (hp : ed.pendingOp = some op) :
    (flushQueuedNativeOperations env ed).ed.pendingOp = none := by
  unfold flushQueuedNativeOperations
  rw [hp]
  dsimp only
  repeat' split <;> try rfl

theorem flush_pending_ok_val (env : Env) (ed : EditorState) (op : NativeOp) (v : JsVal)
    (hp : ed.pendingOp = some op)
    (hok : (flushQueuedNativeOperations env ed).result = .ok v) : v = JsVal.vUndefined := by
  unfold flushQueuedNativeOperations at hok
  rw [hp] at hok
  dsimp only at hok
  repeat' split at hok <;> try simp_all

theorem string_mk_data (s : String) : String.mk s.data = s := by
  cases s
  rfl

theorem bool_imp_disj {a b : Bool} (h : a = true → b = true) : a = false ∨ b = true := by
  cases a
  · exact Or.inl rfl
  · exact Or.inr (h rfl)

theorem find?_map_insert (nodes : List SlateNode) (k a b : Nat) (t : String)
    (node : SlateNode) (h : nodes.find? (fun n => n.key == k) = some node) :
    (nodes.map fun nd =>
        if nd.key = k then
          { nd with text := String.mk (nd.text.data.take a ++ t.data ++ nd.text.data.drop b) }
        else nd).find? (fun n => n.key == k) =
      some { node with
        text := String.mk (node.text.data.take a ++ t.data ++ node.text.data.drop b) } := by
  induction nodes with
  | nil => simp at h
  | cons n rest ih =>
    cases hbk : (n.key == k) with
    | true =>
      have hkk : n.key = k := by simpa using hbk
      simp only [List.find?_cons, hbk] at h
      injection h with hnode
      subst hnode
      rw [List.map_cons, if_pos hkk]
      simp [List.find?_cons, hbk]
    | false =>
      have hkk : ¬n.key = k := by simpa using hbk
      simp only [List.find?_cons, hbk] at h
      rw [List.map_cons, if_neg hkk]
      simp only [List.find?_cons, hbk]
      exact ih h

theorem getNode_insertTextAtRange (d : Doc) (k a b : Nat) (t : String) (node : SlateNode)
    (h : d.getNode k = some node) :
    (d.insertTextAtRange k a b t).getNode k =
      some { node with
        text := String.mk (node.text.data.take a ++ t.data ++ node.text.data.drop b) } :=
  find?_map_insert d.nodes k a b t node h

theorem getNode_insert_full (d : Doc) (k : Nat) (t : String) (node : SlateNode)
    (h : d.getNode k = some node) :
    (d.insertTextAtRange k 0 node.text.length t).getNode k = some { node with text := t } := by
  rw [getNode_insertTextAtRange d k 0 node.text.length t node h]
  have hlen : node.text.length = node.text.data.length := rfl
  rw [List.take_zero, hlen, List.drop_length, List.nil_append, List.append_nil,
    string_mk_data]

/-! Claim theorems. -/

/-- Claim C2 (corrected): `flushQueuedNativeOperations` returns `false` and
leaves all state unchanged when no pending native operation exists; but when
it consumes a pending operation and completes the merge, its JS return value
is `undefined` (falsy), not `true`. -/
theorem flush_return_values (env : Env) (ed : EditorState) :
    (ed.pendingOp = none →
      flushQueuedNativeOperations env ed =
        { ed := ed, effects := [], result := .ok JsVal.vFalse }) ∧
    (∀ op v, ed.pendingOp = some op →
      (flushQueuedNativeOperations env ed).result = .ok v → v = JsVal.vUndefined) :=
  ⟨fun h => flush_no_pending env ed h,
   fun op v hp hok => flush_pending_ok_val env ed op v hp hok⟩

/-- Claim C2 counterexample: at a concrete state the flush consumes the
pending operation and completes the merge, yet returns `undefined` rather
than `true`. -/
theorem flush_return_values_counterexample :
    edA.pendingOp = some opA ∧
    (flushQueuedNativeOperations envA edA).result = .ok JsVal.vUndefined ∧
    (flushQueuedNativeOperations envA edA).result ≠ .ok JsVal.vTrue := by
  decide

/-- Claim C2 witness: the theorem applied at a concrete no-pending state and
at a concrete completed merge. -/
theorem flush_return_values_witness :
    flushQueuedNativeOperations envA edNone =
      { ed := edNone, effects := [], result := .ok JsVal.vFalse } ∧
    JsVal.vUndefined = JsVal.vUndefined :=
  ⟨(flush_return_values envA edNone).1 rfl,
   (flush_return_values envA edA).2 opA JsVal.vUndefined rfl (by decide)⟩

/-- Claim C10: with a pending native operation outstanding, the flush clears
the pending slot before any fatal validation check, so the post-flush state
has no pending operation whether or not an error was thrown, and an
immediately following flush is a no-op reporting nothing to flush. -/
theorem flush_clears_pending_first (env : Env) (ed : EditorState) (op : NativeOp)
    (hp : ed.pendingOp = some op) :
    (flushQueuedNativeOperations env ed).ed.pendingOp = none ∧
    flushQueuedNativeOperations env (flushQueuedNativeOperations env ed).ed =
      { ed := (flushQueuedNativeOperations env ed).ed, effects := [],
        result := .ok JsVal.vFalse } := by
  have h1 := flush_pending_clears env ed op hp
  exact ⟨h1, flush_no_pending env _ h1⟩

/-- Claim C10 witness: a flush that throws (`noSlateSpan`) has still consumed
the pending operation, and the next flush reports nothing to flush instead
of re-throwing. -/
theorem flush_clears_pending_first_witness :
    (flushQueuedNativeOperations envErr edA).result = .error FlushErr.noSlateSpan ∧
    (flushQueuedNativeOperations envErr edA).ed.pendingOp = none ∧
    flushQueuedNativeOperations envErr (flushQueuedNativeOperations envErr edA).ed =
      { ed := (flushQueuedNativeOperations envErr edA).ed, effects := [],
        result := .ok JsVal.vFalse } :=
  ⟨by decide, (flush_clears_pending_first envErr edA opA rfl).1,
   (flush_clears_pending_first envErr edA opA rfl).2⟩

/-- Claim C7: during a flush with a pending operation present, a fatal error
is thrown when no logical container owns the native anchor, when the found
container differs from the captured one, and when the logical node resolved
from the snapshot's anchor key disagrees with the one resolved from the live
DOM container. -/
theorem flush_fatal_error_cases (env : Env) (ed : EditorState) (op : NativeOp)
    (hp : ed.pendingOp = some op) :
    (env.nativeAnchorSpan = none →
      (flushQueuedNativeOperations env ed).result = .error FlushErr.noSlateSpan) ∧
    (∀ b, env.nativeAnchorSpan = some b → op.slateSpanNode ≠ some b →
      (flushQueuedNativeOperations env ed).result = .error FlushErr.spanMismatch) ∧
    (∀ b k1 node, env.nativeAnchorSpan = some b → op.slateSpanNode = some b →
      env.findNodeByDom b = some k1 →
      ed.doc.getNode op.selection.anchor.key = some node →
      k1 ≠ node.key →
      (flushQueuedNativeOperations env ed).result = .error FlushErr.nodeMismatch) := by
  refine ⟨?_, ?_, ?_⟩
  · intro hn
    unfold flushQueuedNativeOperations
    rw [hp, hn]
  · intro b hb hne
    unfold flushQueuedNativeOperations
    rw [hp, hb]
    dsimp only
    rw [if_pos hne]
  · intro b k1 node hb hsp hf hn hne
    unfold flushQueuedNativeOperations
    rw [hp, hb]
    dsimp only
    rw [if_neg (by simp [hsp])]
    simp only [hf, hn]
    rw [if_pos hne]

/-- Claim C7 witness: the theorem applied at concrete desynced inputs. -/
theorem flush_fatal_error_cases_witness :
    (flushQueuedNativeOperations envErr edA).result = .error FlushErr.noSlateSpan ∧
    (flushQueuedNativeOperations { envA with nativeAnchorSpan := some 11 } edA).result =
      .error FlushErr.spanMismatch ∧
    (flushQueuedNativeOperations { envA with findNodeByDom := fun _ => some 2 } edA).result =
      .error FlushErr.nodeMismatch := by
  refine ⟨(flush_fatal_error_cases envErr edA opA rfl).1 rfl, ?_, ?_⟩
  · exact (flush_fatal_error_cases { envA with nativeAnchorSpan := some 11 } edA opA rfl).2.1
      11 rfl (by decide)
  · exact (flush_fatal_error_cases { envA with findNodeByDom := fun _ => some 2 } edA opA
      rfl).2.2 10 2 { key := 1, text := "hello" } rfl rfl rfl (by decide) (by decide)

/-- Claim C1 counterexample: while not composing with a pending native
operation whose flush completes, `onInput` does not stop propagation — the
continuation is still invoked. -/
theorem onInput_propagates_counterexample :
    stA.ps.isComposing = false ∧
    stA.ed.pendingOp = some opA ∧
    (flushQueuedNativeOperations envA stA.ed).result = .ok JsVal.vUndefined ∧
    (step envA .input stA).calledNext = true := by
  decide

/-- Claim C1 (corrected): while not composing with a pending native operation
whose flush completes without throwing, `onInput` performs the flush but does
not treat the event as fully handled: it proceeds to the blurred-selection
check and invokes the continuation exactly when the post-flush selection is
focused. -/
theorem onInput_flushes_then_propagates (env : Env) (s : State) (op : NativeOp) (v : JsVal)
    (hc : s.ps.isComposing = false)
    (hp : s.ed.pendingOp = some op)
    (hok : (flushQueuedNativeOperations env s.ed).result = .ok v) :
    (step env .input s).s.ed = (flushQueuedNativeOperations env s.ed).ed ∧
    (step env .input s).calledNext =
      !(flushQueuedNativeOperations env s.ed).ed.sel.isBlurred := by
  have hv := flush_pending_ok_val env s.ed op v hp hok
  subst hv
  cases hb : (flushQueuedNativeOperations env s.ed).ed.sel.isBlurred <;>
    simp [step, onInput, hc, hok, JsVal.truthy, hb]

/-- Claim C1 witness: the corrected theorem applied at a concrete state with
a focused selection. -/
theorem onInput_flushes_then_propagates_witness :
    (step envA .input stA).s.ed = (flushQueuedNativeOperations envA stA.ed).ed ∧
    (step envA .input stA).calledNext =
      !(flushQueuedNativeOperations envA stA.ed).ed.sel.isBlurred :=
  onInput_flushes_then_propagates envA stA opA JsVal.vUndefined rfl rfl (by decide)

/-- Claim C3: `onCompositionStart` with a collapsed selection throws a fatal
error when a pending native operation is already stored, leaving the stored
operation untouched, and no event other than `compositionstart` ever creates
a pending native operation. -/
theorem pending_op_single_slot (env : Env) (s : State) :
    (∀ op, s.ed.sel.isCollapsed = true → s.ed.pendingOp = some op →
      (step env .compositionStart s).err = some HError.alreadyHaveNativeOp ∧
      (step env .compositionStart s).s.ed.pendingOp = some op) ∧
    (∀ e, e ≠ HEvent.compositionStart → s.ed.pendingOp = none →
      (step env e s).s.ed.pendingOp = none) := by
  constructor
  · intro op hc hp
    simp [step, onCompositionStart, hc, hp]
  · intro e he hp
    cases e <;>
      simp_all [step, onBeforeInput, onBlur, onClick, onCompositionEnd, onCopy,
        onCut, onDragEnd, onDragPass, onDragOver, onDragStart, onDrop, onFocus,
        onInput, onKeyDown, onPaste, onSelect, flush_no_pending, JsVal.truthy] <;>
      (repeat' split) <;> simp_all

/-- Claim C3 witness: the theorem applied at a concrete state with an
outstanding operation, and at a concrete no-pending state for another event. -/
theorem pending_op_single_slot_witness :
    (step envA .compositionStart stA).err = some HError.alreadyHaveNativeOp ∧
    (step envA .compositionStart stA).s.ed.pendingOp = some opA ∧
    (step envA .input stNone).s.ed.pendingOp = none :=
  ⟨((pending_op_single_slot envA stA).1 opA rfl rfl).1,
   ((pending_op_single_slot envA stA).1 opA rfl rfl).2,
   (pending_op_single_slot envA stNone).2 .input (by decide) rfl⟩

/-- Claim C4: when `compositionstart` arrives with a non-collapsed selection,
the selected content is deleted via the editor's delete command, no pending
native operation is created for that composition, and no error is thrown. -/
theorem compositionStart_expanded_deletes (env : Env) (s : State)
    (h : s.ed.sel.isCollapsed = false) :
    (step env .compositionStart s).effects = [Effect.deleteSelection] ∧
    (step env .compositionStart s).s.ed.pendingOp = s.ed.pendingOp ∧
    (step env .compositionStart s).err = none := by
  simp [step, onCompositionStart, h]

/-- Claim C4 witness: the theorem applied at a concrete expanded-selection
state. -/
theorem compositionStart_expanded_deletes_witness :
    (step envA .compositionStart stExp).effects = [Effect.deleteSelection] ∧
    (step envA .compositionStart stExp).s.ed.pendingOp = stExp.ed.pendingOp ∧
    (step envA .compositionStart stExp).err = none :=
  compositionStart_expanded_deletes envA stExp rfl

/-- Claim C5: `compositionCount` never decreases across any event; a
non-throwing `compositionend` schedules its deferred finalize task with the
count captured at scheduling time; a stale task (a newer composition has
incremented the count) is a complete no-op; and a task whose captured count
is still current is exactly the one that sets `isComposing` back to false. -/
theorem composition_reset_guard (env : Env) (e : HEvent) (s : State) (n : Nat)
    (ps : PluginState) :
    s.ps.compositionCount ≤ (step env e s).s.ps.compositionCount ∧
    ((step env .compositionEnd s).err = none →
      (step env .compositionEnd s).scheduledCompositionReset =
        some s.ps.compositionCount) ∧
    (n < ps.compositionCount → runCompositionReset n ps = ps) ∧
    (ps.isComposing = true → n ≤ ps.compositionCount →
      ((runCompositionReset n ps).isComposing = false ↔ ps.compositionCount = n)) := by
  refine ⟨?_, ?_, ?_, ?_⟩
  · cases e <;>
      simp only [step, onBeforeInput, onBlur, onClick, onCompositionEnd, onCopy,
        onCut, onDragEnd, onDragPass, onDragOver, onDragStart, onDrop, onFocus,
        onInput, onKeyDown, onPaste, onSelect, onCompositionStart] <;>
      (repeat' split) <;> simp
  · intro he
    simp only [step, onCompositionEnd] at he ⊢
    cases hr : (flushQueuedNativeOperations env s.ed).result <;> simp_all
  · intro h
    unfold runCompositionReset
    rw [if_pos h]
  · intro hcmp hle
    unfold runCompositionReset
    by_cases h : ps.compositionCount > n
    · rw [if_pos h]
      rw [hcmp]
      constructor
      · intro hx
        cases hx
      · intro hx
        omega
    · rw [if_neg h]
      have : ps.compositionCount = n := by omega
      simp [this]

/-- Claim C5 witness: the theorem applied at concrete inputs, showing the
count increase on a composition start, a stale task being a no-op, and a
current task resetting the composing flag. -/
theorem composition_reset_guard_witness :
    stA.ps.compositionCount ≤ (step envA .compositionStart stA).s.ps.compositionCount ∧
    runCompositionReset 0 psComp = psComp ∧
    ((runCompositionReset 1 psComp).isComposing = false ↔ psComp.compositionCount = 1) :=
  ⟨(composition_reset_guard envA .compositionStart stA 0 psComp).1,
   (composition_reset_guard envA .compositionStart stA 0 psComp).2.2.1 (by decide),
   (composition_reset_guard envA .compositionStart stA 1 psComp).2.2.2 rfl (by decide)⟩

/-- Claim C9 counterexample: on the iOS browser family a key-down classified
as the bold hotkey, received while not composing and not read-only, does not
get `preventDefault`, contradicting the unconditional claim. -/
theorem keydown_ios_counterexample :
    kdBold.isBold = true ∧
    stNone.ps.isComposing = false ∧
    stNone.ed.readOnly = false ∧
    (step envIOS (.keyDown kdBold) stNone).preventedDefault = false := by
  decide

/-- Claim C9 (corrected): while not composing and not read-only, `onKeyDown`
calls `preventDefault` exactly when the environment is not iOS and the event
is classified in the fixed hotkey set; while composing, it prevents default
exactly for caret-moving composition keys and never invokes the
continuation. -/
theorem keydown_prevent_default (env : Env) (kd : KeyFlags) (s : State)
    (hro : s.ed.readOnly = false) :
    (s.ps.isComposing = false →
      ((step env (.keyDown kd) s).preventedDefault = true ↔
        (env.isIOS = false ∧
          (kd.isBold = true ∨ kd.isDeleteBackward = true ∨ kd.isDeleteForward = true ∨
           kd.isDeleteLineBackward = true ∨ kd.isDeleteLineForward = true ∨
           kd.isDeleteWordBackward = true ∨ kd.isDeleteWordForward = true ∨
           kd.isItalic = true ∨ kd.isRedo = true ∨ kd.isSplitBlock = true ∨
           kd.isTransposeCharacter = true ∨ kd.isUndo = true)))) ∧
    (s.ps.isComposing = true →
      (step env (.keyDown kd) s).preventedDefault = kd.isCompose ∧
      (step env (.keyDown kd) s).calledNext = false) := by
  constructor
  · intro hc
    simp only [step, onKeyDown, hro, hc]
    simp [Bool.and_eq_true, Bool.or_eq_true, Bool.not_eq_true', and_assoc, or_assoc]
  · intro hc
    simp [step, onKeyDown, hro, hc]

/-- Claim C9 witness: the corrected theorem applied on a non-iOS environment
at a bold key event, and while composing. -/
theorem keydown_prevent_default_witness :
    (step envA (.keyDown kdBold) stNone).preventedDefault = true ∧
    (step envA (.keyDown kdBold) { stNone with ps := psComp }).calledNext = false :=
  ⟨((keydown_prevent_default envA kdBold stNone rfl).1 rfl).mpr ⟨rfl, Or.inl rfl⟩,
   ((keydown_prevent_default envA kdBold { stNone with ps := psComp } rfl).2 rfl).2⟩

/-- Claim C8: `onBlur` invokes its continuation exactly when none of its
guards fire: not while copying, not read-only, only when the window's active
element changed, and — when a related target exists — only when it is not
the editor root, not a spacer element, and not a found non-void node inside
the editor; a blur whose related target is entirely outside the editor
propagates. -/
theorem blur_propagation_iff (env : Env) (rt : Option Nat) (s : State) :
    (step env (.blur rt) s).calledNext = true ↔
      (s.ps.isCopying = false ∧ s.ed.readOnly = false ∧
       s.ps.activeElement ≠ env.windowActiveElement ∧
       (rt = none ∨ ∃ r, rt = some r ∧ r ≠ env.editorRootId ∧
         env.hasSpacerAttr r = false ∧
         (env.rootContains r = false ∨ env.findNodeByDom r = none ∨
          ∃ k, env.findNodeByDom r = some k ∧ env.isVoidKey k = true))) := by
  show (onBlur env rt s).calledNext = true ↔ _
  unfold onBlur
  repeat' split <;> try simp_all [Bool.and_eq_true, Bool.not_eq_true']
  all_goals exact bool_imp_disj (by assumption)

/-- Claim C8 witness: a blur to a target entirely outside the editor, with no
copy in flight and a changed active element, propagates. -/
theorem blur_propagation_iff_witness :
    (step envA (.blur (some 55)) stNone).calledNext = true :=
  (blur_propagation_iff envA (some 55) stNone).mpr
    ⟨rfl, rfl, by decide, Or.inr ⟨55, rfl, by decide, by decide, Or.inl (by decide)⟩⟩

/-- Claim C6: for every flush that passes its validation checks, the text
written into the logical document is the container's text content with every
zero-width placeholder (U+FEFF) removed; it replaces the target node's
entire text range from offset 0 through the node's current length; and the
resulting node text contains no zero-width placeholder. -/
theorem flush_strips_zero_width (env : Env) (ed : EditorState) (op : NativeOp)
    (spanId : Nat) (node : SlateNode)
    (hp : ed.pendingOp = some op)
    (hspan : op.slateSpanNode = some spanId)
    (hnative : env.nativeAnchorSpan = some spanId)
    (hfind : env.findNodeByDom spanId = some node.key)
    (hnode : ed.doc.getNode op.selection.anchor.key = some node) :
    Effect.insertTextAtRange (ed.doc.getPath op.selection.anchor.key)
        op.selection.anchor.key 0 node.text.length
        (stripZW (spanTextContent (env.runsOfSpan spanId))) ∈
      (flushQueuedNativeOperations env ed).effects ∧
    (flushQueuedNativeOperations env ed).ed.doc.getNode op.selection.anchor.key =
      some { node with text := stripZW (spanTextContent (env.runsOfSpan spanId)) } ∧
    zwChar ∉ (stripZW (spanTextContent (env.runsOfSpan spanId))).data := by
  have hstrip := stripZW_spanTextContent_map_cleanRun (env.runsOfSpan spanId)
  have hins := getNode_insert_full ed.doc op.selection.anchor.key
    (stripZW (spanTextContent (env.runsOfSpan spanId))) node hnode
  refine ⟨?_, ?_, zwChar_not_mem_stripZW _⟩ <;>
    (unfold flushQueuedNativeOperations
     rw [hp, hnative]
     dsimp only
     rw [if_neg (by simp [hspan])]
     simp only [hfind, hnode]
     rw [if_neg (by simp), hstrip]
     split)
  · simp
  · split <;> simp
  · simpa using hins
  · split <;> simpa using hins

/-- Claim C6 witness: the theorem applied at a concrete flush whose span text
carries an injected U+FEFF; the logical node ends up with the stripped text. -/
theorem flush_strips_zero_width_witness :
    (flushQueuedNativeOperations envA edA).ed.doc.getNode opA.selection.anchor.key =
      some { key := 1, text := "abc" } ∧
    zwChar ∉ (stripZW (spanTextContent (envA.runsOfSpan 10))).data := by
  have h := flush_strips_zero_width envA edA opA 10 { key := 1, text := "hello" }
    rfl rfl rfl (by decide) (by decide)
  refine ⟨?_, h.2.2⟩
  rw [h.2.1]
  decide

end SlateBefore
